import Mathlib

/-!
Verification of the cleanup task engine of Quick_Cleaner
(`src/quick_cleaner_V2.py`).

The filesystem is modelled as a finite tree.  Regular files carry their
size together with flags describing which OS calls would fail on them
(`stat`, `chmod`, `unlink`); directories carry a flag saying whether
`rmdir` would fail even when the directory is empty (e.g. a lock held on
it).  A symbolic link stores a snapshot of its (fully resolved) target,
or `broken` when the target does not exist; the snapshot lets the model
answer the `is_file()` / `is_dir()` queries of `pathlib`, which follow
links.  Because the engine never writes through a link (which is exactly
what we prove), the snapshot representation is adequate.

Python's `try/except Exception` blocks are modelled by totality: each
primitive is a total Lean function, and every failure path of the source
is a branch of the definition that yields the corresponding "0 bytes
freed" result.  Byte counts are `Nat`, mirroring the OS guarantee that
`st_size` is non-negative; the orchestrator, whose tasks are arbitrary
Python callables, works over `Int` and clamps with `max 0` exactly as
the source does.
-/

set_option maxHeartbeats 1000000

namespace QuickCleaner

/-- Metadata of a regular file: its size as reported by `stat`, and
flags describing which OS calls fail on it.  `statFails`: `p.stat()`
raises; `readOnly`: the file has the read-only attribute set, so
`unlink` fails unless `os.chmod(p, S_IWRITE|S_IREAD)` cleared it first;
`chmodFails`: that `chmod` call raises (and is swallowed by the source);
`unlinkFails`: `p.unlink()` raises for an unrelated reason (locked,
permission denied, ...). -/
structure FileMeta where
  size : Nat
  statFails : Bool
  readOnly : Bool
  chmodFails : Bool
  unlinkFails : Bool
deriving DecidableEq

mutual
/-- A node of the filesystem tree. -/
inductive FSNode where
  | file (m : FileMeta)
  | dir (es : Entries) (rmdirFails : Bool)
  | symlink (t : LinkTarget)
deriving DecidableEq

/-- What a symbolic link points at: nothing (dangling link), or a
snapshot of the resolved target. -/
inductive LinkTarget where
  | broken
  | to (n : FSNode)
deriving DecidableEq

/-- The ordered children of a directory, as `os.scandir` yields them. -/
inductive Entries where
  | nil
  | cons (name : String) (n : FSNode) (rest : Entries)
deriving DecidableEq
end

mutual
/-- `pathlib.Path.is_file()` on an existing entry: follows symlinks. -/
def FSNode.isFileK : FSNode → Bool
  | .file _ => true
  | .dir _ _ => false
  | .symlink t => t.isFile

/-- Whether a link's resolved target is a regular file. -/
def LinkTarget.isFile : LinkTarget → Bool
  | .broken => false
  | .to n => n.isFileK
end

mutual
/-- `pathlib.Path.is_dir()` on an existing entry: follows symlinks. -/
def FSNode.isDirK : FSNode → Bool
  | .file _ => false
  | .dir _ _ => true
  | .symlink t => t.isDir

/-- Whether a link's resolved target is a directory. -/
def LinkTarget.isDir : LinkTarget → Bool
  | .broken => false
  | .to n => n.isDirK
end

/-- Prepend an optional entry: `none` means the entry was removed. -/
def consOpt (name : String) : Option FSNode → Entries → Entries
  | none, rest => rest
  | some n, rest => .cons name n rest

/--
`safe_remove_file(p)` (source lines 33–49).  The argument is the node
found at `p` (`none` when the path does not exist).

```
if not p.exists() or p.is_symlink(): return 0
size = 0
try: size = p.stat().st_size
except Exception: pass
try: os.chmod(p, stat.S_IWRITE | stat.S_IREAD)
except Exception: pass
p.unlink(missing_ok=True)
return int(size)
```
with the whole body wrapped in `try: ... except Exception: return 0`.
`p.exists()` follows links, so a dangling link takes the `return 0`
branch just like a live link does; both leave the entry in place.
`unlink` on a directory always raises, which the outer handler turns
into `(unchanged, 0)`.  When `unlink` raises, the size already read is
discarded and 0 is returned with the file still present.
-/
def safe_remove_file : Option FSNode → Option FSNode × Nat
  | none => (none, 0)
  | some (.symlink t) => (some (.symlink t), 0)
  | some (.dir es f) => (some (.dir es f), 0)
  | some (.file m) =>
    let size := if m.statFails then 0 else m.size
    if m.unlinkFails || (m.readOnly && m.chmodFails) then
      (some (.file m), 0)
    else
      (none, size)

/-- `dp.rmdir()` attempt of `wipe_tree`: succeeds only on an empty
directory whose removal is not otherwise blocked; any failure is
swallowed and the directory stays. -/
def tryRmdir : Entries → Bool → Option FSNode
  | .nil, false => none
  | es, fl => some (.dir es fl)

mutual
/-- Effect of `wipe_tree`'s `os.walk(path, topdown=False)` loop on one
child entry of a walked directory (source lines 57–66).  `os.walk` is
called with `followlinks=False` (the default): a link whose target is a
directory is listed among `dirs` but never descended into, so the only
thing ever done to it is the `dp.rmdir()` attempt — and on Windows, the
program's platform, `RemoveDirectoryW` on a directory symbolic link
deletes the link itself, not its target, so the link entry is removed
with 0 bytes counted; every other link (a file target or a dangling
link) lands in `files` and is handed to `safe_remove_file`, which
refuses symlinks, so it survives.  A real subdirectory is walked
bottom-up and then `rmdir`ed by its parent iteration. -/
def wipeChild : FSNode → Option FSNode × Nat
  | .file m => safe_remove_file (some (.file m))
  | .dir es fl =>
    let inner := wipeWalk es
    (tryRmdir inner.1 fl, inner.2)
  | .symlink t =>
    if t.isDir then (none, 0)
    else safe_remove_file (some (.symlink t))

/-- The walk loop applied to a whole child list, returning the
surviving entries and the bytes freed. -/
def wipeWalk : Entries → Entries × Nat
  | .nil => (.nil, 0)
  | .cons name n rest =>
    let c := wipeChild n
    let pr := wipeWalk rest
    (consOpt name c.1 pr.1, c.2 + pr.2)
end

/--
`wipe_tree(path)` (source lines 51–73): guard
`if not path.exists() or path.is_symlink(): return 0`, then the
bottom-up walk deleting files and `rmdir`ing subdirectories, and a
final best-effort `path.rmdir()`.  Walking a regular file yields no
triples and the final `rmdir` raises, so a file argument is returned
untouched with 0 freed.
-/
def wipe_tree : Option FSNode → Option FSNode × Nat
  | none => (none, 0)
  | some (.symlink t) => (some (.symlink t), 0)
  | some (.file m) => (some (.file m), 0)
  | some (.dir es fl) =>
    let inner := wipeWalk es
    (tryRmdir inner.1 fl, inner.2)

/-- The `os.scandir` loop of `wipe_dir_contents` (source lines 81–87):
`if p.is_dir() and not p.is_symlink(): wipe_tree(p)`
`elif p.is_file(): safe_remove_file(p)`; anything else (a link whose
target is a directory, or a dangling link) is skipped. -/
def wipeContents : Entries → Entries × Nat
  | .nil => (.nil, 0)
  | .cons name n rest =>
    let pr := wipeContents rest
    if n.isDirK && !(match n with | .symlink _ => true | _ => false) then
      let r := wipe_tree (some n)
      (consOpt name r.1 pr.1, r.2 + pr.2)
    else if n.isFileK then
      let r := safe_remove_file (some n)
      (consOpt name r.1 pr.1, r.2 + pr.2)
    else
      (.cons name n pr.1, pr.2)

/--
`wipe_dir_contents(path)` (source lines 75–90): guard
`if not path.exists() or not path.is_dir(): return 0`, then the scandir
loop.  `path.is_dir()` follows links, and `os.scandir` on a link whose
target is a directory lists the target, so such an argument has its
target's children processed in place (the snapshot inside the link is
updated accordingly).
-/
def wipe_dir_contents : Option FSNode → Option FSNode × Nat
  | some (.dir es fl) =>
    let r := wipeContents es
    (some (.dir r.1 fl), r.2)
  | some (.symlink (.to (.dir es fl))) =>
    let r := wipeContents es
    (some (.symlink (.to (.dir r.1 fl))), r.2)
  | o => (o, 0)

/-- Shell-style glob matching, the fragment of `fnmatch.fnmatch` the
program uses: `*` matches any run of characters, `?` any single
character, everything else matches literally (the source's patterns
contain no `[...]` classes, and case differences do not arise in them).
Fuel-indexed so the kernel can evaluate it; each step shrinks
`name.length + pat.length`, so the fuel supplied by `fnmatch` below is
never exhausted. -/
def globMatch : Nat → List Char → List Char → Bool
  | 0, _, _ => false
  | _ + 1, s, [] => s.isEmpty
  | fuel + 1, s, '*' :: ps =>
    globMatch fuel s ps ||
      (match s with
       | [] => false
       | _ :: s2 => globMatch fuel s2 ('*' :: ps))
  | _ + 1, [], _ :: _ => false
  | fuel + 1, c :: s2, p :: ps => (p == '?' || p == c) && globMatch fuel s2 ps

/-- `fnmatch.fnmatch(name, pat)` restricted as described at `globMatch`. -/
def fnmatch (name pat : String) : Bool :=
  globMatch (name.length + pat.length + 1) name.data pat.data

/-- The `os.scandir` loop of `delete_globs` (source lines 97–102):
`if entry.is_file():` (follows links) and the name matches some
pattern, call `safe_remove_file` on it; otherwise leave the entry
alone.  A matching entry that is a symlink reaches `safe_remove_file`,
which refuses symlinks and returns 0. -/
def dgEntries : Entries → List String → Entries × Nat
  | .nil, _ => (.nil, 0)
  | .cons name n rest, pats =>
    let pr := dgEntries rest pats
    if n.isFileK && pats.any (fun pat => fnmatch name pat) then
      let r := safe_remove_file (some n)
      (consOpt name r.1 pr.1, r.2 + pr.2)
    else
      (.cons name n pr.1, pr.2)

/--
`delete_globs(folder, patterns)` (source lines 92–105): guard
`if not folder.exists() or not folder.is_dir(): return 0`, then the
scandir loop.  As with `wipe_dir_contents`, a link-to-directory
argument passes the guard and `os.scandir` lists its target.
-/
def delete_globs : Option FSNode → List String → Option FSNode × Nat
  | some (.dir es fl), pats =>
    let r := dgEntries es pats
    (some (.dir r.1 fl), r.2)
  | some (.symlink (.to (.dir es fl))), pats =>
    let r := dgEntries es pats
    (some (.symlink (.to (.dir r.1 fl))), r.2)
  | o, _ => (o, 0)

/-!  Recycle-bin adapter.  The two Win32 shell calls are modelled by
their observable outcomes: `SHQueryRecycleBinW` either raises (ctypes
turns a failing `HRESULT` into an exception) or yields the returned
`HRESULT` together with the `i64Size` field it filled in;
`SHEmptyRecycleBinW` likewise either raises or yields its `HRESULT`.
On a platform without the shell service both calls raise.  -/
structure ShellApi where
  queryRecycleBin : Except Unit (Int × Int)
  emptyRecycleBin : Except Unit Int

/--
`empty_recycle_bin()` (source lines 129–143):

```
before = 0
try:
    res = SHQueryRecycleBinW(None, ctypes.byref(info))
    if res == 0: before = int(info.i64Size)
except Exception: pass
try:
    SHEmptyRecycleBinW(None, None, ...)   # result ignored
except Exception: pass
return max(0, before)
```
-/
def empty_recycle_bin (api : ShellApi) : Int :=
  let before : Int :=
    match api.queryRecycleBin with
    | .ok rs => if rs.1 = 0 then rs.2 else 0
    | .error _ => 0
  max 0 before

/-! Path lookup and update inside the tree, used by the cache locator
to wipe `base / rel` while threading the filesystem state.  Traversal
steps only through real directories; the claims settled here never
route a wiped subpath through an intermediate symlink. -/

/-- Find the child with the given name (directory entry names are
unique in a real filesystem, so first match suffices). -/
def lookupE : Entries → String → Option FSNode
  | .nil, _ => none
  | .cons n node rest, name => if n = name then some node else lookupE rest name

/-- Replace (or, with `none`, remove) the child with the given name;
no effect when the name is absent. -/
def updateE : Entries → String → Option FSNode → Entries
  | .nil, _, _ => .nil
  | .cons n node rest, name, repl =>
    if n = name then consOpt n repl rest
    else .cons n node (updateE rest name repl)

/-- The node at a relative path below the given node. -/
def lookupPath : Option FSNode → List String → Option FSNode
  | o, [] => o
  | some (.dir es _), name :: rest => lookupPath (lookupE es name) rest
  | _, _ :: _ => none

/-- Write a replacement node back at a relative path. -/
def updatePath : Option FSNode → List String → Option FSNode → Option FSNode
  | _, [], repl => repl
  | some (.dir es fl), name :: rest, repl =>
    some (.dir (updateE es name (updatePath (lookupE es name) rest repl)) fl)
  | o, _ :: _, _ => o

/-- Run `wipe_dir_contents` on the node at `p`, writing the survivors
back into the surrounding tree. -/
def wipe_dir_contents_at (fs : Option FSNode) (p : List String) :
    Option FSNode × Nat :=
  let r := wipe_dir_contents (lookupPath fs p)
  (updatePath fs p r.1, r.2)

/-- Names of the immediate children for which `e.is_dir()` holds
(follows links), in `os.scandir` order; scanning a non-directory raises
and the exception is swallowed, leaving the candidate list as it was. -/
def dirChildNames : FSNode → List String :=
  fun n =>
    match n with
    | .dir es _ => namesOfDirs es
    | _ => []
where
  namesOfDirs : Entries → List String
    | .nil => []
    | .cons name node rest =>
      if node.isDirK then name :: namesOfDirs rest else namesOfDirs rest

/-- The fixed cache-kind subpaths wiped per candidate profile (source
lines 176–184). -/
def chromiumRels : List (List String) :=
  [["Cache"], ["Code Cache"], ["GPUCache"], ["ShaderCache"],
   ["DawnCache"], ["Media Cache"], ["Service Worker", "CacheStorage"]]

/--
`clean_chromium_user_data(root)` (source lines 164–188): return 0 when
the root does not exist; otherwise collect the candidate profile list —
the root itself plus every immediate child for which `e.is_dir()`
holds — before any wiping starts, then wipe `base / rel` for every
candidate `base` and every cache-kind subpath `rel`, summing the bytes
freed and threading the filesystem through the successive wipes.
-/
def clean_chromium_user_data (root : Option FSNode) : Option FSNode × Nat :=
  match root with
  | none => (none, 0)
  | some r =>
    let candidates : List (List String) :=
      [] :: (dirChildNames r).map (fun n => [n])
    candidates.foldl
      (fun acc base =>
        chromiumRels.foldl
          (fun acc2 rel =>
            let r2 := wipe_dir_contents_at acc2.1 (base ++ rel)
            (r2.1, acc2.2 + r2.2))
          acc)
      (some r, 0)

/-!  Worker thread / orchestrator.  A task's callable is modelled by
the outcome of invoking it once: it raises, or returns `None`, or
returns an integer (Python ints are unbounded, hence `Int`).  The three
Qt signals become constructors of an event type, and `CleanerThread.run`
becomes the list of events it emits, in emission order.  -/

/-- Outcome of calling `func()` for one task. -/
abbrev TaskFun := Except Unit (Option Int)

/-- `freed` as computed for one task (source lines 289–292):
`try: freed = int(func() or 0) except Exception: freed = 0`.
`None or 0` and `0 or 0` are both `0`. -/
def taskFreed : TaskFun → Int
  | .error _ => 0
  | .ok none => 0
  | .ok (some v) => v

/-- One emitted signal. -/
inductive Event where
  | stage (name : String) (step total : Nat)
  | progress (total : Int)
  | done (total : Int)
deriving DecidableEq

def Event.stageStep? : Event → Option Nat
  | .stage _ i _ => some i
  | _ => none

def Event.stageName? : Event → Option String
  | .stage n _ _ => some n
  | _ => none

def Event.progressVal? : Event → Option Int
  | .progress t => some t
  | _ => none

def Event.doneVal? : Event → Option Int
  | .done t => some t
  | _ => none

/-- The loop body of `CleanerThread.run` (source lines 287–295),
carrying the 1-based step counter, the step count and the running
total:

```
for i, (name, func) in enumerate(self.tasks, start=1):
    self.stage.emit(name, i, steps)
    try: freed = int(func() or 0)
    except Exception: freed = 0
    total_freed += max(0, freed)
    self.progress.emit(total_freed)
self.done.emit(total_freed)
```
-/
def runAux : List (String × TaskFun) → Nat → Nat → Int → List Event
  | [], _, _, total => [.done total]
  | (name, f) :: rest, i, steps, total =>
    let total2 := total + max 0 (taskFreed f)
    .stage name i steps :: .progress total2 :: runAux rest (i + 1) steps total2

/-- `CleanerThread.run` (source lines 283–295) as the list of events it
emits: `steps = len(self.tasks)`, the counter starts at 1 and the total
at 0. -/
def CleanerThread.run (tasks : List (String × TaskFun)) : List Event :=
  runAux tasks 1 tasks.length 0

/-- The successive values of `total_freed` at each `progress.emit`,
starting from the given running total. -/
def totals : List (String × TaskFun) → Int → List Int
  | [], _ => []
  | t :: rest, acc =>
    let acc2 := acc + max 0 (taskFreed t.2)
    acc2 :: totals rest acc2

/-- Last element of a list, or the default when it is empty. -/
def lastValue : List Int → Int → Int
  | [], d => d
  | a :: l, _ => lastValue l a

/-!  GUI start logic.  `QuickCleanerApp` models the window state that
`start_clean` reads and writes; the catalogs `BASE_TASKS` and
`BROWSER_TASKS` are module-level data in the source and appear here as
fields holding, for each named task, the outcome of its callable.  The
second component of `start_clean`'s result is `none` when no worker was
started (so no events will be emitted for the request) and otherwise
the event list the spawned `CleanerThread` will emit.  -/

/-- A `CleanerThread` object: its task list and `isRunning()` state. -/
structure Worker where
  tasks : List (String × TaskFun)
  running : Bool

/-- The fields of the `QuickCleaner` widget touched by `start_clean`. -/
structure QuickCleanerApp where
  baseTasks : List (String × TaskFun)
  browserTasks : List (String × String × TaskFun)
  browserChecks : List (String × Bool)
  cleaner : Option Worker
  progressMax : Nat
  progressValue : Nat
  statusLabel : String
  totalLabel : String
  busy : Bool

/-- `build_task_list` (source lines 475–480): the base tasks followed
by the registered task of every checked browser, in checkbox order. -/
def build_task_list (s : QuickCleanerApp) : List (String × TaskFun) :=
  s.baseTasks ++
    s.browserChecks.filterMap (fun c =>
      if c.2 then (s.browserTasks.find? (fun bt => bt.1 = c.1)).map (fun bt => bt.2)
      else none)

/--
`start_clean` (source lines 482–496):

```
if self.cleaner and self.cleaner.isRunning(): return
tasks = self.build_task_list()
self.progress.setRange(0, len(tasks)); self.progress.setValue(0)
self.total_label.setText("Freed: 0 B"); self.status_label.setText("Starting…")
self.set_busy(True)
self.cleaner = CleanerThread(tasks); ...; self.cleaner.start()
```
The early `return` leaves every field untouched and starts nothing.
-/
def start_clean (s : QuickCleanerApp) : QuickCleanerApp × Option (List Event) :=
  match s.cleaner with
  | some w =>
    if w.running then (s, none)
    else startRun s
  | none => startRun s
where
  startRun (s : QuickCleanerApp) : QuickCleanerApp × Option (List Event) :=
    let tasks := build_task_list s
    ({ s with
        progressMax := tasks.length
        progressValue := 0
        totalLabel := "Freed: 0 B"
        statusLabel := "Starting…"
        busy := true
        cleaner := some ⟨tasks, true⟩ },
     some (CleanerThread.run tasks))

/-!  Observers used by the statements below.  -/

mutual
/-- All symbolic links in a tree, as (relative path, target snapshot)
pairs, in scan order.  A wipe that never follows, rewrites or deletes a
link leaves this observation exactly as it was. -/
def FSNode.links : FSNode → List (List String × LinkTarget)
  | .file _ => []
  | .dir es _ => es.links
  | .symlink t => [([], t)]

def Entries.links : Entries → List (List String × LinkTarget)
  | .nil => []
  | .cons n node rest =>
    (node.links.map (fun p => (n :: p.1, p.2))) ++ rest.links
end

/-- `FSNode.links` lifted to a possibly-absent node. -/
def linksO : Option FSNode → List (List String × LinkTarget)
  | none => []
  | some n => n.links

mutual
/-- Sum of the sizes the engine can read for the regular files in a
tree (a file whose `stat` fails is counted as 0, exactly as
`safe_remove_file` counts it). -/
def FSNode.totalSize : FSNode → Nat
  | .file m => if m.statFails then 0 else m.size
  | .dir es _ => es.totalSize
  | .symlink _ => 0

def Entries.totalSize : Entries → Nat
  | .nil => 0
  | .cons _ n rest => n.totalSize + rest.totalSize
end

mutual
/-- A tree the engine can delete completely: no symbolic link anywhere,
no file whose `unlink` fails (after the best-effort `chmod` clears a
read-only attribute), no directory whose `rmdir` fails. -/
def FSNode.deletable : FSNode → Bool
  | .file m => !m.unlinkFails && !(m.readOnly && m.chmodFails)
  | .dir es fl => !fl && es.deletable
  | .symlink _ => false

def Entries.deletable : Entries → Bool
  | .nil => true
  | .cons _ n rest => n.deletable && rest.deletable
end

/-!  Helper lemmas about the orchestrator loop.  -/

theorem runAux_stageSteps (ts : List (String × TaskFun)) (i s : Nat) (total : Int) :
    (runAux ts i s total).filterMap Event.stageStep? = List.range' i ts.length := by
  induction ts generalizing i total with
  | nil => simp [runAux, Event.stageStep?]
  | cons t rest ih =>
    cases t with
    | mk name f => simp [runAux, Event.stageStep?, List.range', ih]

theorem runAux_stageNames (ts : List (String × TaskFun)) (i s : Nat) (total : Int) :
    (runAux ts i s total).filterMap Event.stageName? = ts.map (fun t => t.1) := by
  induction ts generalizing i total with
  | nil => simp [runAux, Event.stageName?]
  | cons t rest ih =>
    cases t with
    | mk name f => simp [runAux, Event.stageName?, ih]

theorem runAux_progress (ts : List (String × TaskFun)) (i s : Nat) (total : Int) :
    (runAux ts i s total).filterMap Event.progressVal? = totals ts total := by
  induction ts generalizing i total with
  | nil => simp [runAux, Event.progressVal?, totals]
  | cons t rest ih =>
    cases t with
    | mk name f => simp [runAux, Event.progressVal?, totals, ih]

theorem runAux_done (ts : List (String × TaskFun)) (i s : Nat) (total : Int) :
    (runAux ts i s total).filterMap Event.doneVal?
      = [lastValue (totals ts total) total] := by
  induction ts generalizing i total with
  | nil => simp [runAux, Event.doneVal?, totals, lastValue]
  | cons t rest ih =>
    cases t with
    | mk name f => simp [runAux, Event.doneVal?, totals, lastValue, ih]

theorem totals_chain (ts : List (String × TaskFun)) (acc : Int) :
    List.Chain' (fun a b => a ≤ b) (acc :: totals ts acc) := by
  induction ts generalizing acc with
  | nil => simp [totals]
  | cons t rest ih =>
    simp only [totals]
    refine List.chain'_cons.mpr ⟨?_, ih _⟩
    have h : 0 ≤ max 0 (taskFreed t.2) := le_max_left 0 _
    omega

theorem totals_length (ts : List (String × TaskFun)) (acc : Int) :
    (totals ts acc).length = ts.length := by
  induction ts generalizing acc with
  | nil => simp [totals]
  | cons t rest ih => simp [totals, ih]

theorem totals_append (l1 l2 : List (String × TaskFun)) (acc : Int) :
    totals (l1 ++ l2) acc
      = totals l1 acc ++ totals l2 (lastValue (totals l1 acc) acc) := by
  induction l1 generalizing acc with
  | nil => simp [totals, lastValue]
  | cons t rest ih => simp [totals, lastValue, ih]

/-!  Helper lemmas about the deletion primitives.  -/

theorem links_consOpt (name : String) (o : Option FSNode) (rest : Entries) :
    (consOpt name o rest).links
      = ((linksO o).map (fun p => (name :: p.1, p.2))) ++ rest.links := by
  cases o <;> simp [consOpt, linksO, Entries.links]

theorem links_safe_remove (x : Option FSNode) :
    linksO ((safe_remove_file x).1) = linksO x := by
  match x with
  | none => rfl
  | some (.symlink t) => rfl
  | some (.dir es f) => rfl
  | some (.file m) =>
    simp only [safe_remove_file]
    split <;> simp [linksO, FSNode.links]

theorem linksO_tryRmdir (es : Entries) (fl : Bool) :
    linksO (tryRmdir es fl) = es.links := by
  cases es <;> cases fl <;> simp [tryRmdir, linksO, FSNode.links, Entries.links]

mutual
theorem links_wipeChild (n : FSNode) :
    linksO (wipeChild n).1 = n.links.filter (fun p => !p.2.isDir) := by
  match n with
  | .file m =>
    simp only [wipeChild, safe_remove_file]
    split <;> simp [linksO, FSNode.links]
  | .dir es fl =>
    show linksO (tryRmdir (wipeWalk es).1 fl)
        = List.filter (fun p => !p.2.isDir) (FSNode.dir es fl).links
    rw [linksO_tryRmdir, links_wipeWalk es]
    rfl
  | .symlink t =>
    simp only [wipeChild, safe_remove_file]
    cases hd : t.isDir <;> simp [hd, linksO, FSNode.links]

theorem links_wipeWalk (es : Entries) :
    ((wipeWalk es).1).links = es.links.filter (fun p => !p.2.isDir) := by
  match es with
  | .nil => simp [wipeWalk, Entries.links]
  | .cons a n rest =>
    have h1 := links_wipeChild n
    have h2 := links_wipeWalk rest
    simp [wipeWalk, links_consOpt, Entries.links, h1, h2, List.filter_map,
      Function.comp_def]
end

theorem wipeContents_cons_symlink (a : String) (t : LinkTarget) (rest : Entries) :
    wipeContents (.cons a (.symlink t) rest)
      = (.cons a (.symlink t) (wipeContents rest).1, (wipeContents rest).2) := by
  simp only [wipeContents, FSNode.isDirK, FSNode.isFileK, safe_remove_file]
  cases hd : t.isDir <;> cases hf : t.isFile <;> simp [consOpt]

mutual
theorem wipeChild_deletable (n : FSNode) (h : n.deletable = true) :
    wipeChild n = (none, n.totalSize) := by
  match n with
  | .file m =>
    simp only [FSNode.deletable, Bool.and_eq_true, Bool.not_eq_true'] at h
    have hnc : ¬(m.readOnly = true ∧ m.chmodFails = true) := by
      intro hc
      rw [hc.1, hc.2] at h
      simp at h
    simp [wipeChild, safe_remove_file, FSNode.totalSize, h.1, hnc]
  | .dir es fl =>
    simp only [FSNode.deletable, Bool.and_eq_true, Bool.not_eq_true'] at h
    have ih := wipeWalk_deletable es h.2
    simp [wipeChild, ih, h.1, tryRmdir, FSNode.totalSize]
  | .symlink t => simp [FSNode.deletable] at h

theorem wipeWalk_deletable (es : Entries) (h : es.deletable = true) :
    wipeWalk es = (.nil, es.totalSize) := by
  match es with
  | .nil => simp [wipeWalk, Entries.totalSize]
  | .cons a n rest =>
    simp only [Entries.deletable, Bool.and_eq_true] at h
    have h1 := wipeChild_deletable n h.1
    have h2 := wipeWalk_deletable rest h.2
    simp [wipeWalk, h1, h2, consOpt, Entries.totalSize]
end

theorem wipeContents_deletable (es : Entries) (h : es.deletable = true) :
    wipeContents es = (.nil, es.totalSize) := by
  match es with
  | .nil => simp [wipeContents, Entries.totalSize]
  | .cons a n rest =>
    simp only [Entries.deletable, Bool.and_eq_true] at h
    have ih := wipeContents_deletable rest h.2
    cases n with
    | file m =>
      have hh := h.1
      simp only [FSNode.deletable, Bool.and_eq_true, Bool.not_eq_true'] at hh
      have hnc : ¬(m.readOnly = true ∧ m.chmodFails = true) := by
        intro hc
        rw [hc.1, hc.2] at hh
        simp at hh
      simp [wipeContents, FSNode.isDirK, FSNode.isFileK, safe_remove_file, ih,
        consOpt, Entries.totalSize, FSNode.totalSize, hh.1, hnc]
    | dir es2 fl2 =>
      have hh := h.1
      simp only [FSNode.deletable, Bool.and_eq_true, Bool.not_eq_true'] at hh
      have hw := wipeWalk_deletable es2 hh.2
      simp [wipeContents, FSNode.isDirK, wipe_tree, hw, hh.1, tryRmdir, ih,
        consOpt, Entries.totalSize, FSNode.totalSize]
    | symlink t => simp [FSNode.deletable] at h

/-!  The claims.  -/

/-- Claim C1: for every selection of N tasks, one run of the
orchestrator (`CleanerThread.run`) emits exactly N stage-start events
whose step indices are `1, 2, ..., N` in selection order (and whose
names are the task names in selection order), exactly N progress events
whose cumulative byte totals are non-decreasing — the running total,
which starts at 0, never decreases at any point of the run — and whose
done events form exactly the one-element list holding the value of the
last progress event (0 for an empty selection, where no progress event
exists). -/
theorem claim_C1_orchestrator_event_stream (tasks : List (String × TaskFun)) :
    ((CleanerThread.run tasks).filterMap Event.stageStep?
        = List.range' 1 tasks.length)
    ∧ ((CleanerThread.run tasks).filterMap Event.stageName?
        = tasks.map (fun t => t.1))
    ∧ (((CleanerThread.run tasks).filterMap Event.progressVal?).length
        = tasks.length)
    ∧ List.Chain' (fun a b => a ≤ b)
        (0 :: (CleanerThread.run tasks).filterMap Event.progressVal?)
    ∧ ((CleanerThread.run tasks).filterMap Event.doneVal?
        = [lastValue ((CleanerThread.run tasks).filterMap Event.progressVal?) 0]) := by
  refine ⟨runAux_stageSteps _ _ _ _, runAux_stageNames _ _ _ _, ?_, ?_, ?_⟩
  · rw [CleanerThread.run, runAux_progress, totals_length]
  · rw [CleanerThread.run, runAux_progress]
    exact totals_chain _ _
  · rw [CleanerThread.run, runAux_done, runAux_progress]

/-- Claim C2: when a task anywhere in the selection raises
(`Except.error ()` as the outcome of its callable), the orchestrator
still emits all N stage-start events with indices `1..N`, all N
progress events, and the single done event equal to the last progress
value; the failing task contributes 0 bytes — the progress list is the
prefix totals of the tasks before it, then its own progress event
repeating the previous running total unchanged, then the totals of the
tasks after it.  No task failure aborts the run. -/
theorem claim_C2_task_failure_isolated (pre post : List (String × TaskFun))
    (nm : String) :
    ((CleanerThread.run (pre ++ (nm, Except.error ()) :: post)).filterMap
          Event.stageStep?
        = List.range' 1 (pre ++ (nm, Except.error ()) :: post).length)
    ∧ (((CleanerThread.run (pre ++ (nm, Except.error ()) :: post)).filterMap
          Event.progressVal?).length = (pre ++ (nm, Except.error ()) :: post).length)
    ∧ ((CleanerThread.run (pre ++ (nm, Except.error ()) :: post)).filterMap
          Event.doneVal?
        = [lastValue ((CleanerThread.run (pre ++ (nm, Except.error ()) :: post)).filterMap
            Event.progressVal?) 0])
    ∧ ((CleanerThread.run (pre ++ (nm, Except.error ()) :: post)).filterMap
          Event.progressVal?
        = totals pre 0
          ++ lastValue (totals pre 0) 0 :: totals post (lastValue (totals pre 0) 0)) := by
  refine ⟨runAux_stageSteps _ _ _ _, ?_, ?_, ?_⟩
  · rw [CleanerThread.run, runAux_progress, totals_length]
  · rw [CleanerThread.run, runAux_done, runAux_progress]
  · rw [CleanerThread.run, runAux_progress, totals_append]
    simp [totals, taskFreed]

/-- Claim C3 as stated is false on the program's platform.  `wipe_tree`
attempts `dp.rmdir()` on every entry of `os.walk`'s `dirs` list, and on
Windows (the program is Windows-only: it loads `ctypes.windll.shell32`
at import) `RemoveDirectoryW` on a directory symbolic link deletes the
link, so a symlink child whose target is a directory does not survive
the wipe.  Concretely, a directory whose sole child is such a link —
which the link observation shows to be present before the wipe — is
wiped to nothing. -/
theorem claim_C3_counterexample :
    wipe_tree (some (FSNode.dir
        (.cons "lnk" (.symlink (.to (.dir .nil false))) .nil) false))
      = (none, 0)
    ∧ linksO (some (FSNode.dir
        (.cons "lnk" (.symlink (.to (.dir .nil false))) .nil) false)) ≠ [] := by
  constructor
  · rfl
  · simp [linksO, FSNode.links, Entries.links]

/-- Claim C3, amended: symbolic links below a wiped directory are never
dereferenced or traversed into, and a target's bytes are never added to
the returned freed total.  A link whose target is not a directory (a
file target, or a dangling link) survives the walk of `wipe_tree` in
place, with its target snapshot intact, contributing 0 bytes; a link
whose target is a directory is removed from the walked tree by the
`rmdir` attempt — removed as a bare link, with 0 bytes counted and the
processing of the remaining entries unaffected by the removal, its
target left untouched.  Hence exactly the links with non-directory
targets survive `wipe_tree` of a directory, at their paths and with
their snapshots unchanged.  Every symlink child of the directory
scanned by `wipe_dir_contents` itself survives in place with 0 bytes,
whatever its target. -/
theorem claim_C3_symlinks_amended :
    (∀ (es : Entries) (fl : Bool),
        linksO ((wipe_tree (some (.dir es fl))).1)
          = (Entries.links es).filter (fun p => !p.2.isDir))
    ∧ (∀ (a : String) (t : LinkTarget) (rest : Entries), t.isDir = false →
        wipeWalk (.cons a (.symlink t) rest)
          = (.cons a (.symlink t) (wipeWalk rest).1, (wipeWalk rest).2))
    ∧ (∀ (a : String) (t : LinkTarget) (rest : Entries), t.isDir = true →
        wipeWalk (.cons a (.symlink t) rest)
          = ((wipeWalk rest).1, (wipeWalk rest).2))
    ∧ (∀ (a : String) (t : LinkTarget) (rest : Entries),
        wipeContents (.cons a (.symlink t) rest)
          = (.cons a (.symlink t) (wipeContents rest).1, (wipeContents rest).2)) := by
  refine ⟨?_, ?_, ?_, wipeContents_cons_symlink⟩
  · intro es fl
    show linksO (tryRmdir (wipeWalk es).1 fl)
        = (Entries.links es).filter (fun p => !p.2.isDir)
    rw [linksO_tryRmdir, links_wipeWalk es]
  · intro a t rest ht
    simp [wipeWalk, wipeChild, ht, safe_remove_file, consOpt]
  · intro a t rest ht
    simp [wipeWalk, wipeChild, ht, consOpt]

/-- Witness for the amended C3: a dangling link child survives the walk
loop in place with 0 bytes, and a directory-target link child is
removed by the walk loop with 0 bytes. -/
theorem claim_C3_witness :
    (LinkTarget.broken.isDir = false
      ∧ wipeWalk (.cons "lnk" (.symlink .broken) .nil)
          = (.cons "lnk" (.symlink .broken) (wipeWalk .nil).1, (wipeWalk .nil).2))
    ∧ ((LinkTarget.to (.dir .nil false)).isDir = true
      ∧ wipeWalk (.cons "dl" (.symlink (.to (.dir .nil false))) .nil)
          = ((wipeWalk .nil).1, (wipeWalk .nil).2)) :=
  ⟨⟨rfl, claim_C3_symlinks_amended.2.1 "lnk" .broken .nil rfl⟩,
   ⟨rfl, claim_C3_symlinks_amended.2.2.1 "dl" (.to (.dir .nil false)) .nil rfl⟩⟩

/-- Claim C4: the four deletion primitives are total — in this model
each is a total function whose byte count is a `Nat`, hence always a
non-negative integer, mirroring that every exception path of the source
is swallowed — and every internal error degrades to 0 bytes for the
item at hand while processing continues: a non-existent path yields
`(none, 0)` from each primitive, a symbolic-link path is returned
untouched with 0 bytes, and a file whose `unlink` fails survives the
walk and scandir loops verbatim, contributes 0 bytes, and leaves the
processing of the remaining entries exactly as it would have been. -/
theorem claim_C4_primitives_total :
    (∀ x : Option FSNode, 0 ≤ (safe_remove_file x).2 ∧ 0 ≤ (wipe_tree x).2
      ∧ 0 ≤ (wipe_dir_contents x).2 ∧ ∀ pats, 0 ≤ (delete_globs x pats).2)
    ∧ (safe_remove_file none = (none, 0) ∧ wipe_tree none = (none, 0)
      ∧ wipe_dir_contents none = (none, 0)
      ∧ ∀ pats, delete_globs none pats = (none, 0))
    ∧ (∀ t : LinkTarget, safe_remove_file (some (.symlink t)) = (some (.symlink t), 0)
      ∧ wipe_tree (some (.symlink t)) = (some (.symlink t), 0))
    ∧ (wipe_dir_contents (some (.symlink .broken)) = (some (.symlink .broken), 0)
      ∧ ∀ m : FileMeta, wipe_dir_contents (some (.symlink (.to (.file m))))
          = (some (.symlink (.to (.file m))), 0))
    ∧ (∀ (a : String) (sz : Nat) (st ro cf : Bool) (rest : Entries),
        wipeWalk (.cons a (.file ⟨sz, st, ro, cf, true⟩) rest)
          = (.cons a (.file ⟨sz, st, ro, cf, true⟩) (wipeWalk rest).1,
             (wipeWalk rest).2)
        ∧ wipeContents (.cons a (.file ⟨sz, st, ro, cf, true⟩) rest)
          = (.cons a (.file ⟨sz, st, ro, cf, true⟩) (wipeContents rest).1,
             (wipeContents rest).2)) := by
  refine ⟨fun x => ⟨Nat.zero_le _, Nat.zero_le _, Nat.zero_le _, fun _ => Nat.zero_le _⟩,
    ⟨rfl, rfl, rfl, fun _ => rfl⟩, fun t => ⟨rfl, rfl⟩, ⟨rfl, fun m => rfl⟩, ?_⟩
  intro a sz st ro cf rest
  constructor
  · simp [wipeWalk, wipeChild, safe_remove_file, consOpt]
  · simp [wipeContents, FSNode.isDirK, FSNode.isFileK, safe_remove_file, consOpt]

/-- Claim C6: `safe_remove_file` returns 0 without error when the path
does not exist, is a symbolic link (returned untouched), or when the
deletion fails (`unlink` raising, or a read-only attribute that the
best-effort `chmod` could not clear — the file then survives);
otherwise it reads the size before deleting, deletes the file (the
read-only attribute having been cleared when `chmod` works), and
returns the size read — while a failing size read yields 0 even though
the deletion itself still succeeds. -/
theorem claim_C6_safe_remove_file_contract :
    (safe_remove_file none = (none, 0))
    ∧ (∀ t : LinkTarget, safe_remove_file (some (.symlink t)) = (some (.symlink t), 0))
    ∧ (∀ (sz : Nat) (st ro cf : Bool),
        safe_remove_file (some (.file ⟨sz, st, ro, cf, true⟩))
          = (some (.file ⟨sz, st, ro, cf, true⟩), 0))
    ∧ (∀ (sz : Nat) (st : Bool),
        safe_remove_file (some (.file ⟨sz, st, true, true, false⟩))
          = (some (.file ⟨sz, st, true, true, false⟩), 0))
    ∧ (∀ (sz : Nat) (ro : Bool),
        safe_remove_file (some (.file ⟨sz, false, ro, false, false⟩)) = (none, sz))
    ∧ (∀ (sz : Nat) (ro : Bool),
        safe_remove_file (some (.file ⟨sz, true, ro, false, false⟩)) = (none, 0)) := by
  refine ⟨rfl, fun t => rfl, fun sz st ro cf => by simp [safe_remove_file],
    fun sz st => by simp [safe_remove_file], fun sz ro => by simp [safe_remove_file],
    fun sz ro => by simp [safe_remove_file]⟩

/-- Claim C7: the cache locator treats the root plus every immediate
subdirectory as candidate profiles and wipes the fixed cache-kind
subpaths of each: a missing root yields 0 with no error, a root with
zero profiles (an empty directory) yields 0 with no error, and over a
root holding two profile subdirectories each with a "Cache" folder
containing a 1000-byte file it frees exactly 2000 bytes while both
profile directories (and their now-empty Cache folders) remain in
place. -/
theorem claim_C7_cache_locator :
    (clean_chromium_user_data none = (none, 0))
    ∧ (∀ fl : Bool, clean_chromium_user_data (some (.dir .nil fl))
        = (some (.dir .nil fl), 0))
    ∧ (clean_chromium_user_data (some (.dir
        (.cons "Profile 1" (.dir (.cons "Cache" (.dir (.cons "f"
            (.file ⟨1000, false, false, false, false⟩) .nil) false) .nil) false)
        (.cons "Profile 2" (.dir (.cons "Cache" (.dir (.cons "g"
            (.file ⟨1000, false, false, false, false⟩) .nil) false) .nil) false)
        .nil)) false))
      = (some (.dir
        (.cons "Profile 1" (.dir (.cons "Cache" (.dir .nil false) .nil) false)
        (.cons "Profile 2" (.dir (.cons "Cache" (.dir .nil false) .nil) false)
        .nil)) false), 2000)) :=
  ⟨rfl, fun _ => rfl, rfl⟩

/-- Claim C8: `empty_recycle_bin` returns the size observed by the
query taken before emptying — `max 0 size` when the query succeeded
with `HRESULT` 0, and 0 when the query raised or returned a non-zero
code (in particular when the platform exposes no trash service); the
result is never negative, and it is entirely independent of the
outcome of the emptying call, which is never re-queried.  Totality of
the model function mirrors that the source swallows every exception. -/
theorem claim_C8_empty_recycle_bin_contract :
    (∀ api : ShellApi, 0 ≤ empty_recycle_bin api)
    ∧ (∀ (e : Except Unit Int) (u : Unit),
        empty_recycle_bin ⟨Except.error u, e⟩ = 0)
    ∧ (∀ (r sz : Int) (e : Except Unit Int),
        empty_recycle_bin ⟨Except.ok (r, sz), e⟩ = if r = 0 then max 0 sz else 0)
    ∧ (∀ (q : Except Unit (Int × Int)) (e1 e2 : Except Unit Int),
        empty_recycle_bin ⟨q, e1⟩ = empty_recycle_bin ⟨q, e2⟩) := by
  refine ⟨?_, fun e u => rfl, ?_, fun q e1 e2 => rfl⟩
  · intro api
    simp only [empty_recycle_bin]
    exact le_max_left 0 _
  · intro r sz e
    simp only [empty_recycle_bin]
    split <;> simp

/-- Claim C9: a start request issued while a worker is running
(`self.cleaner and self.cleaner.isRunning()`) is a no-op: the window
state is returned completely unchanged, no second worker is created or
started, and no events are emitted for the request — it is rejected,
not queued. -/
theorem claim_C9_no_concurrent_runs (base : List (String × TaskFun))
    (bts : List (String × String × TaskFun)) (checks : List (String × Bool))
    (ts : List (String × TaskFun)) (pmax pv : Nat) (sl tl : String) (b : Bool) :
    start_clean ⟨base, bts, checks, some ⟨ts, true⟩, pmax, pv, sl, tl, b⟩
      = (⟨base, bts, checks, some ⟨ts, true⟩, pmax, pv, sl, tl, b⟩, none) := rfl

/-- Claim C10: `delete_globs` never deletes a direct child that is a
symbolic link, whatever the pattern list — in particular even when the
link's name matches a pattern, in which case the entry passes the
`is_file` check (which follows links) but `safe_remove_file` refuses
symbolic links: the link survives in place verbatim and the freed total
is exactly that of the remaining entries. -/
theorem claim_C10_delete_globs_skips_symlinks (fl : Bool) (a : String)
    (t : LinkTarget) (rest : Entries) (pats : List String) :
    delete_globs (some (.dir (.cons a (.symlink t) rest) fl)) pats
      = (some (.dir (.cons a (.symlink t) (dgEntries rest pats).1) fl),
         (dgEntries rest pats).2) := by
  simp only [delete_globs, dgEntries]
  split
  · simp [safe_remove_file, consOpt]
  · simp

/-- Claim C5 as stated is false: a directory is not always empty after
`wipe_dir_contents`.  Concretely, a directory whose sole child is a
dangling symbolic link is returned by `wipe_dir_contents` with that
child still present, so the subsequent listing is not empty. -/
theorem claim_C5_counterexample :
    ¬ ((wipe_dir_contents
          (some (FSNode.dir (.cons "lnk" (.symlink .broken) .nil) false))).1
        = some (FSNode.dir .nil false)) := by
  intro h
  simp only [wipe_dir_contents, wipeContents, FSNode.isDirK, LinkTarget.isDir,
    FSNode.isFileK, LinkTarget.isFile] at h
  simp at h

/-- Claim C5, amended: after `wipe_dir_contents` the directory itself
always still exists; and for every directory that is deletable — it
contains no symbolic links, every file in it can be unlinked (after the
best-effort read-only clearing), and every subdirectory can be
removed — `wipe_dir_contents` leaves it existing and with an empty
listing while freeing the readable sizes of all contained files, and
`wipe_tree` removes the directory entirely with the same freed total. -/
theorem claim_C5_wipe_results_amended :
    (∀ (es : Entries) (fl : Bool),
      (wipe_dir_contents (some (.dir es fl))).1
        = some (.dir (wipeContents es).1 fl))
    ∧ (∀ (es : Entries) (fl : Bool), (FSNode.dir es fl).deletable = true →
        wipe_dir_contents (some (.dir es fl)) = (some (.dir .nil fl), es.totalSize)
        ∧ wipe_tree (some (.dir es fl)) = (none, es.totalSize)) := by
  constructor
  · intro es fl
    simp [wipe_dir_contents]
  · intro es fl h
    simp only [FSNode.deletable, Bool.and_eq_true, Bool.not_eq_true'] at h
    have hc := wipeContents_deletable es h.2
    have hw := wipeWalk_deletable es h.2
    constructor
    · simp [wipe_dir_contents, hc]
    · simp [wipe_tree, hw, h.1, tryRmdir]

/-- Witness for the amended C5: a deletable one-file directory is
emptied (and kept) by `wipe_dir_contents` and removed by `wipe_tree`,
freeing the 5 bytes of its file. -/
theorem claim_C5_witness :
    (FSNode.dir (.cons "a" (.file ⟨5, false, false, false, false⟩) .nil) false).deletable
        = true
    ∧ (wipe_dir_contents
          (some (.dir (.cons "a" (.file ⟨5, false, false, false, false⟩) .nil) false))
        = (some (.dir .nil false),
           (Entries.cons "a" (.file ⟨5, false, false, false, false⟩) .nil).totalSize)
      ∧ wipe_tree
          (some (.dir (.cons "a" (.file ⟨5, false, false, false, false⟩) .nil) false))
        = (none,
           (Entries.cons "a" (.file ⟨5, false, false, false, false⟩) .nil).totalSize)) :=
  ⟨rfl, claim_C5_wipe_results_amended.2 _ false rfl⟩

end QuickCleaner
